import Mathlib

/-
Verification of the document-to-record extraction and quality-check pipeline
of `vc_diligence/extract.py` (functions `parse_pdf`, `_parse_number`,
`analyze_data`, `check_data_quality`).

Modelling conventions for the shallow embedding:
* Python floats are idealised as rationals (`ℚ`); a missing / unparseable
  numeric field (Python `None`, pandas `NaN`) is `Option.none`.  All pandas
  comparisons against `NaN` evaluate to `False`, which is mirrored by the
  `match`-on-`Option` definitions below (a `none` operand makes the
  comparison `false`).
* pandas `Series.mean` skips `NaN` entries and returns `NaN` for an empty or
  all-`NaN` series; `Series.sum` skips `NaN` and returns `0` when nothing is
  left.  `PyFloat.nan` models the float `NaN` result, which is distinct from
  Python `None` (modelled as `Option.none` at the `Metrics` level).
* `df.nlargest(3, col)` (default `keep='first'`) drops `NaN` rows and is a
  stable descending selection; it is modelled as sorting the rows that carry
  a value by the total order (value descending, original position ascending)
  and taking the first three.
* Strings are handled through their character lists.  `str.lower`,
  `str.strip` and the regex character class `\s` are modelled on the ASCII
  range, which covers every string the specification and the tests exercise.
* Python `float(s)` is modelled on its decimal fragment
  (sign, digits, optional single point, optional exponent); the
  `inf`/`nan`/underscore literal forms never arise from the pipeline's
  inputs and are mapped to `none`.
-/

namespace VC

/-- Whitespace characters recognised by Python's `str.strip` and the regex
class `\s` (ASCII range). -/
def pySpace : List Char := [' ', '\t', '\n', '\r', '\x0b', '\x0c']

/-- Whether a character is (ASCII) whitespace. -/
def isPySpace (c : Char) : Bool := pySpace.contains c

/-- Whether a character is a decimal digit. -/
def isDigitCh (c : Char) : Bool := decide ('0' ≤ c) && decide (c ≤ '9')

/-- Numeric value of a decimal digit character. -/
def digVal (c : Char) : ℕ := c.toNat - 48

/-- Value of a big-endian list of decimal digit characters. -/
def natOfDigits (l : List Char) : ℕ := l.foldl (fun a c => 10 * a + digVal c) 0

/-- Powers of ten. -/
def pow10 : ℕ → ℕ
  | 0 => 1
  | n + 1 => 10 * pow10 n

/-- Reads an optional leading sign; returns (isNegative, rest). -/
def readSign : List Char → Bool × List Char
  | '+' :: r => (false, r)
  | '-' :: r => (true, r)
  | r => (false, r)

/-- Parses the optional exponent suffix of a float literal ("e"/"E", optional
sign, one or more digits, end of string); `some 0` on empty input, `none` when
the remaining characters are not a valid exponent. -/
def parseExp : List Char → Option ℤ
  | [] => some 0
  | c :: r =>
    if c = 'e' ∨ c = 'E' then
      let s := readSign r
      let ds := s.2.takeWhile isDigitCh
      let rest := s.2.dropWhile isDigitCh
      if ds.isEmpty ∨ ¬ rest.isEmpty then none
      else some (if s.1 then -(natOfDigits ds : ℤ) else (natOfDigits ds : ℤ))
    else none

/-- The syntactic content of a successfully parsed float literal: sign,
mantissa digits (as a number), number of digits after the point, exponent. -/
structure FloatParts where
  neg : Bool
  mant : ℕ
  fracLen : ℕ
  exp : ℤ
deriving DecidableEq

/-- The rational value denoted by a parsed float literal. -/
def ratOfParts (p : FloatParts) : ℚ :=
  let mant : ℚ := (p.mant : ℚ) / (pow10 p.fracLen : ℚ)
  let scaled : ℚ :=
    if 0 ≤ p.exp then mant * (pow10 p.exp.toNat : ℚ)
    else mant / (pow10 (-p.exp).toNat : ℚ)
  if p.neg then -scaled else scaled

/-- Syntactic analysis of Python `float(s)` on an already-stripped string:
optional sign, decimal digits with at most one point (at least one digit
overall), optional exponent.  `none` exactly when `float` raises
`ValueError` (the `inf`/`nan`/underscore forms are outside the modelled
fragment). -/
def parseFloatParts (cs : List Char) : Option FloatParts :=
  let s := readSign cs
  let d1 := s.2.takeWhile isDigitCh
  let cs2 := s.2.dropWhile isDigitCh
  let fr : List Char × List Char :=
    match cs2 with
    | '.' :: r => (r.takeWhile isDigitCh, r.dropWhile isDigitCh)
    | _ => ([], cs2)
  if d1.isEmpty ∧ fr.1.isEmpty then none
  else
    (parseExp fr.2).map (fun e =>
      { neg := s.1, mant := natOfDigits (d1 ++ fr.1), fracLen := fr.1.length, exp := e })

/-- Model of Python `float(s)` on an already-stripped string. -/
def parseFloat? (cs : List Char) : Option ℚ :=
  (parseFloatParts cs).map ratOfParts

/-- Deletes every `,`, `€`, `$` and `%` character, mirroring the chain of
`str.replace` calls in `_parse_number`. -/
def stripChars (l : List Char) : List Char :=
  l.filter (fun c => ¬ (c = ',' ∨ c = '€' ∨ c = '$' ∨ c = '%'))

/-- Python `str.strip()`: removes leading and trailing whitespace. -/
def pyStrip (l : List Char) : List Char :=
  ((l.dropWhile isPySpace).reverse.dropWhile isPySpace).reverse

/-- A value reaching `_parse_number`: either already numeric
(`isinstance(value, (int, float))`) or a string. -/
inductive PyIn where
  | num : ℚ → PyIn
  | str : String → PyIn

/-- Model of `_parse_number` from `extract.py`: numeric pass-through, otherwise strip
`,`/`€`/`$`/`%` and surrounding whitespace and attempt a float parse,
returning `none` on failure. -/
def parse_number : PyIn → Option ℚ
  | .num q => some q
  | .str s => parseFloat? (pyStrip (stripChars s.data))

/-- One startup's financial snapshot (a row of the extracted DataFrame).
Numeric fields are `none` when missing or unparseable (pandas `NaN`). -/
structure Record where
  name : String
  cash : Option ℚ
  monthly_burn : Option ℚ
  revenue_growth : Option ℚ
deriving DecidableEq

/-- Condition `burn > 0 and cash / burn < 1` with pandas `NaN` comparison semantics. -/
def critCond (r : Record) : Bool :=
  match r.monthly_burn with
  | some b => decide (0 < b) &&
      (match r.cash with
       | some c => decide (c / b < 1)
       | none => false)
  | none => false

/-- Condition `burn <= 0` with pandas `NaN` comparison semantics. -/
def zeroBurnCond (r : Record) : Bool :=
  match r.monthly_burn with
  | some b => decide (b ≤ 0)
  | none => false

/-- Condition `burn > 0 and cash / burn > 120` with pandas `NaN` comparison
semantics. -/
def longRunwayCond (r : Record) : Bool :=
  match r.monthly_burn with
  | some b => decide (0 < b) &&
      (match r.cash with
       | some c => decide (120 < c / b)
       | none => false)
  | none => false

/-- Condition `pd.notna(growth) and growth < -0.5`. -/
def negGrowthCond (r : Record) : Bool :=
  match r.revenue_growth with
  | some g => decide (g < -(1 / 2 : ℚ))
  | none => false

/-- Message of the critical-runway warning. -/
def critMsg : String := "CRITICAL: Less than 1 month runway"

/-- Message of the zero-or-negative-burn warning. -/
def zeroBurnMsg : String := "Zero or negative burn rate - incomplete data?"

/-- Message of the unusually-long-runway warning. -/
def longRunwayMsg : String := "Unusually long runway - verify burn rate"

/-- Message of the significant-negative-growth warning. -/
def negGrowthMsg : String := "Significant negative growth - verify data"

/-- The `if/elif/elif` runway chain of `check_data_quality` for one row. -/
def runwayPart (r : Record) : List (String × String) :=
  if critCond r then [(r.name, critMsg)]
  else if zeroBurnCond r then [(r.name, zeroBurnMsg)]
  else if longRunwayCond r then [(r.name, longRunwayMsg)]
  else []

/-- The independent negative-growth check of `check_data_quality` for one
row. -/
def growthPart (r : Record) : List (String × String) :=
  if negGrowthCond r then [(r.name, negGrowthMsg)] else []

/-- All warnings `check_data_quality` appends while visiting one row. -/
def recordWarnings (r : Record) : List (String × String) :=
  runwayPart r ++ growthPart r

/-- Model of `check_data_quality` from `extract.py`: iterate the rows in order,
append the runway warning (if any) and then the growth warning (if any) for
each row, and finally truncate to the first four warnings. -/
def check_data_quality (rs : List Record) : List (String × String) :=
  (rs.foldl (fun ws r => ws ++ recordWarnings r) []).take 4

/-- Result of a pandas float aggregation: either a number or `NaN`. -/
inductive PyFloat where
  | nan : PyFloat
  | val : ℚ → PyFloat
deriving DecidableEq

/-- pandas `Series.mean`: skip the `NaN` entries; the mean of an empty or
all-`NaN` series is `NaN`. -/
def nanmean (xs : List (Option ℚ)) : PyFloat :=
  let vs := xs.filterMap id
  if vs.isEmpty then .nan else .val (vs.sum / (vs.length : ℚ))

/-- The row filter `df['monthly_burn'] > 0` (false on `NaN`). -/
def burnPos (r : Record) : Bool :=
  match r.monthly_burn with
  | some b => decide (0 < b)
  | none => false

/-- The element of the series `valid_burn['cash'] / valid_burn['monthly_burn']`
contributed by one row (`none` when the quotient is `NaN`). -/
def runwayRatio (r : Record) : Option ℚ :=
  match r.cash, r.monthly_burn with
  | some c, some b => some (c / b)
  | _, _ => none

/-- Total order used to model `df.nlargest(3, 'revenue_growth')`
(`keep='first'`): revenue growth descending, and original row position
ascending among ties. -/
def growerR : (ℕ × String × ℚ) → (ℕ × String × ℚ) → Prop :=
  fun a b => b.2.2 < a.2.2 ∨ (a.2.2 = b.2.2 ∧ a.1 ≤ b.1)

instance : DecidableRel growerR := fun a b => by unfold growerR; infer_instance

instance : IsTotal (ℕ × String × ℚ) growerR where
  total a b := by
    unfold growerR
    rcases lt_trichotomy a.2.2 b.2.2 with h | h | h
    · exact Or.inr (Or.inl h)
    · rcases Nat.le_total a.1 b.1 with h2 | h2
      · exact Or.inl (Or.inr ⟨h, h2⟩)
      · exact Or.inr (Or.inr ⟨h.symm, h2⟩)
    · exact Or.inl (Or.inl h)

instance : IsTrans (ℕ × String × ℚ) growerR where
  trans a b c hab hbc := by
    unfold growerR at *
    rcases hab with h1 | ⟨e1, i1⟩
    · rcases hbc with h2 | ⟨e2, i2⟩
      · exact Or.inl (h2.trans h1)
      · exact Or.inl (e2 ▸ h1)
    · rcases hbc with h2 | ⟨e2, i2⟩
      · exact Or.inl (e1 ▸ h2)
      · exact Or.inr ⟨e1.trans e2, i1.trans i2⟩

/-- The rows that carry a `revenue_growth` value, tagged with their original
position (starting at `i`). -/
def growthEntriesFrom : ℕ → List Record → List (ℕ × String × ℚ)
  | _, [] => []
  | i, r :: rs =>
    match r.revenue_growth with
    | some g => (i, r.name, g) :: growthEntriesFrom (i + 1) rs
    | none => growthEntriesFrom (i + 1) rs

/-- The rows that carry a `revenue_growth` value, tagged with their original
position. -/
def growthEntries (rs : List Record) : List (ℕ × String × ℚ) :=
  growthEntriesFrom 0 rs

/-- The three rows selected by `df.nlargest(3, 'revenue_growth')`, with their
original positions. -/
def top3Entries (rs : List Record) : List (ℕ × String × ℚ) :=
  (List.insertionSort growerR (growthEntries rs)).take 3

/-- Projection `top_3[['name', 'revenue_growth']].to_dict('records')`. -/
def top_growers (rs : List Record) : List (String × ℚ) :=
  (top3Entries rs).map (fun e => (e.2.1, e.2.2))

/-- The dictionary returned by `analyze_data`. -/
structure Metrics where
  startup_count : ℕ
  avg_burn_rate : PyFloat
  avg_runway : Option PyFloat
  runway_based_on : Option ℕ
  total_cash : ℚ
  top_growers : List (String × ℚ)
deriving DecidableEq

/-- Model of `analyze_data` from `extract.py`. -/
def analyze_data (rs : List Record) : Metrics :=
  let valid := rs.filter burnPos
  { startup_count := rs.length
    avg_burn_rate := nanmean (rs.map (fun r => r.monthly_burn))
    avg_runway :=
      if 0 < valid.length then some (nanmean (valid.map runwayRatio)) else none
    runway_based_on :=
      if valid.length < rs.length then some valid.length else none
    total_cash := (rs.filterMap (fun r => r.cash)).sum
    top_growers := top_growers rs }

/-- Evaluation of `str(cell).lower() if cell else ''` for one table cell (`None` and the
empty string are falsy). -/
def cellLower (cell : Option String) : String :=
  match cell with
  | some s => String.mk (s.data.map Char.toLower)
  | none => ""

/-- Whether `p` occurs as a prefix of `l`. -/
def isPrefixSeq : List Char → List Char → Bool
  | [], _ => true
  | _ :: _, [] => false
  | p :: ps, c :: cs => decide (p = c) && isPrefixSeq ps cs

/-- Whether `pat` occurs contiguously inside `l` (Python's `in` on
strings). -/
def containsSeq (pat : List Char) : List Char → Bool
  | [] => isPrefixSeq pat []
  | c :: cs => isPrefixSeq pat (c :: cs) || containsSeq pat cs

/-- The header-row test of `parse_pdf`: the lowercased row must contain the
cell `name`, and the concatenation of its lowercased cells must contain one
of the substrings `cash`, `burn`, `growth`. -/
def isHeaderRow (row : List (Option String)) : Bool :=
  let rl := row.map cellLower
  rl.contains "name" &&
    (["cash", "burn", "growth"].any (fun x => containsSeq x.data (String.join rl).data))

/-- If `cs` begins with `\s*\([^)]*\)`, returns the characters following that
match. -/
def parenMatch (cs : List Char) : Option (List Char) :=
  match cs.dropWhile isPySpace with
  | '(' :: r =>
    let after := r.dropWhile (fun c => !decide (c = ')'))
    match after with
    | _ :: rest => some rest
    | [] => none
  | _ => none

/-- Fuel-indexed scanner for `re.sub(r'\s*\([^)]*\)', '', s)`: removes each
leftmost whitespace-prefixed parenthesised group. -/
def stripParensAux : ℕ → List Char → List Char
  | 0, _ => []
  | _ + 1, [] => []
  | fuel + 1, c :: cs =>
    match parenMatch (c :: cs) with
    | some rest => stripParensAux fuel rest
    | none => c :: stripParensAux fuel cs

/-- Model of `re.sub(r'\s*\([^)]*\)', '', s)` (every match consumes at least two
characters, so the length of the input is enough fuel). -/
def stripParens (cs : List Char) : List Char := stripParensAux cs.length cs

/-- Header-cell normalisation of the tabular path: drop parenthesised
suffixes, strip, lowercase, then replace spaces and hyphens with
underscores. -/
def normalizeCol (s : String) : String :=
  String.mk (((pyStrip (stripParens s.data)).map Char.toLower).map
    (fun c => if c = ' ' ∨ c = '-' then '_' else c))

/-- A gathered record: a Python dict with string keys and cell values, in
insertion order. -/
abbrev RawRec := List (String × Option String)

/-- Assignment `d[k] = v` on a Python dict: overwrite the key in place, or append it. -/
def dset (d : RawRec) (k : String) (v : Option String) : RawRec :=
  if d.any (fun p => p.1 = k) then
    d.map (fun p => if p.1 = k then (k, v) else p)
  else d ++ [(k, v)]

/-- Lookup on a Python dict: `some` of the stored value when the key is
present, `none` when it is absent. -/
def dget (d : RawRec) (k : String) : Option (Option String) :=
  (d.find? (fun p => p.1 = k)).map (fun p => p.2)

/-- Truthiness of a cell value (`None` and `''` are falsy). -/
def truthyCell (v : Option String) : Bool :=
  match v with
  | some s => decide (s ≠ "")
  | none => false

/-- Truthiness of `record.get('name')`. -/
def hasName (d : RawRec) : Bool :=
  match dget d "name" with
  | some v => truthyCell v
  | none => false

/-- The inner loop of the tabular path: zip a data row positionally against
the (already lowercased) header cells, normalising each header cell into a
column key. -/
def rowRecord (header : List String) (row : List (Option String)) : RawRec :=
  (List.zip header row).foldl (fun d p => dset d (normalizeCol p.1) p.2) []

/-- One data row of the tabular path: skipped when empty or entirely falsy,
and dropped when it lacks a truthy `name`. -/
def dataRowRecord (header : List String) (row : List (Option String)) :
    Option RawRec :=
  if row.isEmpty ∨ ¬ row.any truthyCell = true then none
  else
    let d := rowRecord header row
    if hasName d then some d else none

/-- Processing of one extracted table: find the first header row, then accept
the data rows after it. -/
def parseTable (table : List (List (Option String))) : List RawRec :=
  match table.findIdx? isHeaderRow with
  | none => []
  | some i =>
    let header := (table.getD i []).map cellLower
    (table.drop (i + 1)).filterMap (dataRowRecord header)

/-- Case-insensitive prefix match of a lowercase pattern (`re.IGNORECASE`);
returns the rest of the input after the pattern. -/
def matchCI : List Char → List Char → Option (List Char)
  | [], cs => some cs
  | _ :: _, [] => none
  | p :: ps, c :: cs => if p = Char.toLower c then matchCI ps cs else none

/-- Characters outside `[^\n,;]`, i.e. characters that terminate a captured value. -/
def isValueEnd (c : Char) : Bool := decide (c = '\n' ∨ c = ',' ∨ c = ';')

/-- Backtracking step of `\s*([^\n,;]+)`: when the greedy whitespace run is
followed by a terminator (or the end of the input), the capture must start on
the last non-newline whitespace character, if any. -/
def backtrackCapture (w : List Char) : Option (List Char) :=
  match w.reverse.dropWhile (fun c => decide (c = '\n')) with
  | c :: _ => some [c]
  | [] => none

/-- Match of `\s*([^\n,;]+)` at the start of `cs`, with the regex engine's greedy
matching and backtracking. -/
def captureValue (cs : List Char) : Option (List Char) :=
  let w := cs.takeWhile isPySpace
  match cs.dropWhile isPySpace with
  | c :: r =>
    if isValueEnd c then backtrackCapture w
    else some ((c :: r).takeWhile (fun x => !isValueEnd x))
  | [] => backtrackCapture w

/-- Attempts the pattern field-name, `\s*[:\-]`, `\s*([^\n,;]+)` at the
start of `cs`; returns the
captured group. -/
def matchFieldAt (field : List Char) (cs : List Char) : Option (List Char) :=
  match matchCI field cs with
  | none => none
  | some r1 =>
    match r1.dropWhile isPySpace with
    | c :: r2 => if decide (c = ':') || decide (c = '-') then captureValue r2 else none
    | [] => none

/-- Model of `re.search` scanning: try the field pattern at every position, leftmost
first. -/
def searchFieldIn (field : List Char) : List Char → Option (List Char)
  | [] => none
  | c :: cs =>
    match matchFieldAt field (c :: cs) with
    | some v => some v
    | none => searchFieldIn field cs

/-- Model of the search `field + colon-or-dash + value` with `re.IGNORECASE`
followed by `.group(1).strip()`. -/
def searchField (field : String) (block : List Char) : Option String :=
  (searchFieldIn field.data block).map (fun v => String.mk (pyStrip v))

/-- The lookahead `(?=name\s*[:\-])` (case-insensitive). -/
def isBlockStart (cs : List Char) : Bool :=
  match matchCI "name".data cs with
  | some r =>
    match r.dropWhile isPySpace with
    | c :: _ => decide (c = ':' ∨ c = '-')
    | [] => false
  | none => false

/-- Model of the block split on newline-before-`name` (case-insensitive): cut the
text before every line that starts a new `name` block, consuming the
newline. -/
def splitBlocks : List Char → List (List Char)
  | [] => [[]]
  | c :: cs =>
    if decide (c = '\n') && isBlockStart cs then [] :: splitBlocks cs
    else
      match splitBlocks cs with
      | b :: bs => (c :: b) :: bs
      | [] => [[c]]

/-- The four field names searched in each unstructured block. -/
def textFields : List String := ["name", "cash", "monthly_burn", "revenue_growth"]

/-- One key-value block of the unstructured path. -/
def parseBlock (block : List Char) : RawRec :=
  textFields.foldl
    (fun d f =>
      match searchField f block with
      | some v => dset d f (some v)
      | none => d)
    []

/-- The unstructured (key-value) fallback applied to one page's text. -/
def parseText (text : String) : List RawRec :=
  (splitBlocks text.data).filterMap (fun b =>
    let d := parseBlock b
    if hasName d then some d else none)

/-- One PDF page as seen by the core: its extracted tables and its plain
text (`page.extract_text() or ''`). -/
structure Page where
  tables : List (List (List (Option String)))
  text : String

/-- The records contributed by all tables of one page. -/
def pageTableRecords (p : Page) : List RawRec :=
  (p.tables.map parseTable).flatten

/-- The per-page body of the record-gathering loop of `parse_pdf`: extend
the accumulated records with every table's rows, then — only when the
accumulated list is still empty — with the key-value text fallback. -/
def gatherStep (recs : List RawRec) (p : Page) : List RawRec :=
  if (recs ++ pageTableRecords p).isEmpty then
    (recs ++ pageTableRecords p) ++ parseText p.text
  else recs ++ pageTableRecords p

/-- The record-gathering loop of `parse_pdf` over all pages. -/
def gatherRecords (pages : List Page) : List RawRec :=
  pages.foldl gatherStep []

/-- The records contributed by the tabular path alone. -/
def allTableRecords (pages : List Page) : List RawRec :=
  (pages.map pageTableRecords).flatten

/-- Numeric normalisation of one column entry of a gathered record:
`_parse_number(x) if pd.notna(x) else None`. -/
def numField (d : RawRec) (c : String) : Option ℚ :=
  match dget d c with
  | some (some s) => parse_number (.str s)
  | _ => none

/-- One DataFrame row after the numeric conversion of
`cash`/`monthly_burn`/`revenue_growth`. -/
def toRecord (d : RawRec) : Record :=
  { name := (match dget d "name" with | some (some s) => s | _ => "")
    cash := numField d "cash"
    monthly_burn := numField d "monthly_burn"
    revenue_growth := numField d "revenue_growth" }

/-- The four required column keys. -/
def requiredCols : List String := ["name", "cash", "monthly_burn", "revenue_growth"]

/-- Hard-failure signals of `parse_pdf` (each is a `sys.exit(1)` in the
source). -/
inductive ExtractErr where
  | noData : ExtractErr
  | missingFields : List String → ExtractErr
deriving DecidableEq

/-- Model of `parse_pdf` after the document has been opened: gather records from all
pages, fail when none were accepted, convert the numeric columns, and fail
when a required column key is absent from every gathered record. -/
def parse_pdf (pages : List Page) : Except ExtractErr (List Record) :=
  let records := gatherRecords pages
  if records.isEmpty then .error .noData
  else
    let missing :=
      requiredCols.filter (fun c => !(records.any (fun d => (dget d c).isSome)))
    if missing.isEmpty then .ok (records.map toRecord)
    else .error (.missingFields missing)

/-- Claim C3: `_parse_number` passes numeric input through unchanged as a
floating value; otherwise it strips commas and the glyphs `€`, `$`, `%` plus
surrounding whitespace and attempts a floating-point parse, returning `none`
on failure (the function is total, hence never raises); `"$1,000,000.00"`
yields `1000000.0`, `"15%"` yields `15.0` (percent sign stripped, not
divided by 100), `"abc"` yields `none`, and the European decimal-comma form
`"€1.000.000,00"` yields `none`. -/
theorem claim_C3 :
    (∀ q : ℚ, parse_number (.num q) = some q) ∧
    (∀ s : String, parse_number (.str s) = parseFloat? (pyStrip (stripChars s.data))) ∧
    parse_number (.str "$1,000,000.00") = some 1000000 ∧
    parse_number (.str "15%") = some 15 ∧
    parse_number (.str "abc") = none ∧
    parse_number (.str "€1.000.000,00") = none := by
  refine ⟨fun q => rfl, fun s => rfl, ?_, ?_, by decide, by decide⟩
  · have h : parse_number (.str "$1,000,000.00") =
        some (ratOfParts { neg := false, mant := 100000000, fracLen := 2, exp := 0 }) := rfl
    rw [h]
    norm_num [ratOfParts, pow10]
  · have h : parse_number (.str "15%") =
        some (ratOfParts { neg := false, mant := 15, fracLen := 0, exp := 0 }) := rfl
    rw [h]
    norm_num [ratOfParts, pow10]

lemma critCond_iff {r : Record} :
    critCond r = true ↔
      ∃ b c, r.monthly_burn = some b ∧ r.cash = some c ∧ 0 < b ∧ c / b < 1 := by
  unfold critCond
  cases hb : r.monthly_burn with
  | none => simp
  | some b =>
    cases hc : r.cash with
    | none => simp
    | some c => simp [and_assoc]

lemma zeroBurnCond_iff {r : Record} :
    zeroBurnCond r = true ↔ ∃ b, r.monthly_burn = some b ∧ b ≤ 0 := by
  unfold zeroBurnCond
  cases hb : r.monthly_burn with
  | none => simp
  | some b => simp

lemma longRunwayCond_iff {r : Record} :
    longRunwayCond r = true ↔
      ∃ b c, r.monthly_burn = some b ∧ r.cash = some c ∧ 0 < b ∧ 120 < c / b := by
  unfold longRunwayCond
  cases hb : r.monthly_burn with
  | none => simp
  | some b =>
    cases hc : r.cash with
    | none => simp
    | some c => simp [and_assoc]

lemma negGrowthCond_iff {r : Record} :
    negGrowthCond r = true ↔ ∃ g, r.revenue_growth = some g ∧ g < -(1 / 2 : ℚ) := by
  unfold negGrowthCond
  cases hg : r.revenue_growth with
  | none => simp
  | some g => simp

/-- Claim C1: the per-record anomaly rules are evaluated in priority order —
a record with `monthly_burn > 0` and `cash / monthly_burn < 1` receives only
the CRITICAL runway warning (among the three runway-related warnings), else
a record with `monthly_burn <= 0` receives the zero-or-negative-burn
warning, else a record with `monthly_burn > 0` and `cash / monthly_burn >
120` receives the long-runway warning, so at most one of the three fires
per record; independently, a record whose `revenue_growth` is present and
`< -0.5` additionally receives the negative-growth warning, which can
co-occur with any runway warning. -/
theorem claim_C1 (r : Record) :
    ((∃ b c, r.monthly_burn = some b ∧ r.cash = some c ∧ 0 < b ∧ c / b < 1) →
       recordWarnings r = (r.name, critMsg) :: growthPart r) ∧
    ((∃ b, r.monthly_burn = some b ∧ b ≤ 0) →
       recordWarnings r = (r.name, zeroBurnMsg) :: growthPart r) ∧
    ((∃ b c, r.monthly_burn = some b ∧ r.cash = some c ∧ 0 < b ∧ 120 < c / b) →
       recordWarnings r = (r.name, longRunwayMsg) :: growthPart r) ∧
    ((recordWarnings r).filter
        (fun w => decide (w.2 = critMsg ∨ w.2 = zeroBurnMsg ∨ w.2 = longRunwayMsg))).length ≤ 1 ∧
    ((∃ g, r.revenue_growth = some g ∧ g < -(1 / 2 : ℚ)) ↔
       (r.name, negGrowthMsg) ∈ recordWarnings r) := by
  have hgrow : ∀ w ∈ growthPart r, w.2 = negGrowthMsg := by
    intro w hw
    unfold growthPart at hw
    rcases hg : negGrowthCond r with _ | _ <;> rw [hg] at hw <;> simp at hw
    rw [hw]
  have hrun : ∀ w ∈ runwayPart r,
      w.2 = critMsg ∨ w.2 = zeroBurnMsg ∨ w.2 = longRunwayMsg := by
    intro w hw
    unfold runwayPart at hw
    split_ifs at hw <;> simp at hw <;> rw [hw] <;> simp
  refine ⟨?_, ?_, ?_, ?_, ?_⟩
  · intro h
    have hc : critCond r = true := critCond_iff.mpr h
    simp [recordWarnings, runwayPart, hc]
  · intro h
    rcases h with ⟨b, hb, hble⟩
    have hz : zeroBurnCond r = true := zeroBurnCond_iff.mpr ⟨b, hb, hble⟩
    have hc : critCond r = false := by
      rw [← Bool.not_eq_true]
      intro hcc
      rcases critCond_iff.mp hcc with ⟨b2, c2, hb2, _, hpos, _⟩
      rw [hb] at hb2
      exact absurd (Option.some_injective _ hb2 ▸ hpos) (not_lt.mpr hble)
    simp [recordWarnings, runwayPart, hc, hz]
  · intro h
    rcases h with ⟨b, c, hb, hcash, hpos, hlong⟩
    have hl : longRunwayCond r = true := longRunwayCond_iff.mpr ⟨b, c, hb, hcash, hpos, hlong⟩
    have hc : critCond r = false := by
      rw [← Bool.not_eq_true]
      intro hcc
      rcases critCond_iff.mp hcc with ⟨b2, c2, hb2, hc2, _, hlt⟩
      rw [hb] at hb2
      rw [hcash] at hc2
      have hbb := Option.some_injective _ hb2
      have hcc2 := Option.some_injective _ hc2
      subst hbb
      subst hcc2
      exact absurd (hlong.trans hlt) (by norm_num)
    have hz : zeroBurnCond r = false := by
      rw [← Bool.not_eq_true]
      intro hzz
      rcases zeroBurnCond_iff.mp hzz with ⟨b2, hb2, hble⟩
      rw [hb] at hb2
      exact absurd (Option.some_injective _ hb2 ▸ hble) (not_le.mpr hpos)
    simp [recordWarnings, runwayPart, hc, hz, hl]
  · have hfg : (growthPart r).filter
        (fun w => decide (w.2 = critMsg ∨ w.2 = zeroBurnMsg ∨ w.2 = longRunwayMsg)) = [] := by
      refine List.filter_eq_nil_iff.mpr ?_
      intro w hw
      simp only [decide_eq_true_eq]
      rw [hgrow w hw]
      decide
    unfold recordWarnings
    rw [List.filter_append, hfg, List.append_nil]
    refine le_trans (List.length_filter_le _ _) ?_
    unfold runwayPart
    split_ifs <;> simp
  · rw [negGrowthCond_iff.symm]
    unfold recordWarnings
    rw [List.mem_append]
    constructor
    · intro hg
      refine Or.inr ?_
      unfold growthPart
      rw [hg]
      simp
    · intro h
      rcases h with h | h
      · exfalso
        rcases hrun _ h with h2 | h2 | h2 <;>
          · have h3 : negGrowthMsg = _ := h2
            exact absurd h3 (by decide)
      · by_contra hg
        rw [Bool.not_eq_true] at hg
        unfold growthPart at h
        rw [hg] at h
        simp at h

/-- Claim C10: a record whose `monthly_burn` is absent receives none of the
three runway-related warnings — in particular it is not flagged by the
zero-or-negative-burn rule — though it still receives the negative-growth
warning when its `revenue_growth` is present and `< -0.5`. -/
theorem claim_C10 (r : Record) (h : r.monthly_burn = none) :
    recordWarnings r = growthPart r ∧
    (r.name, critMsg) ∉ recordWarnings r ∧
    (r.name, zeroBurnMsg) ∉ recordWarnings r ∧
    (r.name, longRunwayMsg) ∉ recordWarnings r ∧
    ((∃ g, r.revenue_growth = some g ∧ g < -(1 / 2 : ℚ)) ↔
       (r.name, negGrowthMsg) ∈ recordWarnings r) := by
  have hc : critCond r = false := by unfold critCond; rw [h]
  have hz : zeroBurnCond r = false := by unfold zeroBurnCond; rw [h]
  have hl : longRunwayCond r = false := by unfold longRunwayCond; rw [h]
  have hrw : recordWarnings r = growthPart r := by
    unfold recordWarnings runwayPart
    rw [hc, hz, hl]
    simp
  have hmem : ∀ m : String, m ≠ negGrowthMsg → (r.name, m) ∉ recordWarnings r := by
    intro m hm hmem
    rw [hrw] at hmem
    unfold growthPart at hmem
    rcases hg : negGrowthCond r with _ | _ <;> rw [hg] at hmem <;> simp at hmem
    exact hm hmem
  refine ⟨hrw, hmem _ (by decide), hmem _ (by decide), hmem _ (by decide), ?_⟩
  rw [negGrowthCond_iff.symm, hrw]
  unfold growthPart
  rcases hg : negGrowthCond r with _ | _ <;> simp

/-- Witness for C10 at a concrete record with absent burn and strongly
negative growth. -/
theorem claim_C10_witness :
    recordWarnings ⟨"E", some 5, none, some (-1)⟩ =
      growthPart ⟨"E", some 5, none, some (-1)⟩ ∧
    ("E", zeroBurnMsg) ∉ recordWarnings ⟨"E", some 5, none, some (-1)⟩ :=
  ⟨(claim_C10 ⟨"E", some 5, none, some (-1)⟩ rfl).1,
   (claim_C10 ⟨"E", some 5, none, some (-1)⟩ rfl).2.2.1⟩

lemma foldl_append_warnings (rs : List Record) (acc : List (String × String)) :
    rs.foldl (fun ws r => ws ++ recordWarnings r) acc =
      acc ++ (rs.map recordWarnings).flatten := by
  induction rs generalizing acc with
  | nil => simp
  | cons r rs ih => simp [List.foldl_cons, ih]

/-- Claim C7: `check_data_quality` returns the first four entries, in
record-iteration order, of the full sequence of warnings generated by the
anomaly rules, and hence never more than four warnings. -/
theorem claim_C7 (rs : List Record) :
    check_data_quality rs = ((rs.map recordWarnings).flatten).take 4 ∧
    (check_data_quality rs).length ≤ 4 := by
  constructor
  · unfold check_data_quality
    rw [foldl_append_warnings]
    simp
  · unfold check_data_quality
    exact List.length_take_le 4 _

/-- Witness for C1 at concrete records triggering each of the three runway
rules. -/
theorem claim_C1_witness :
    recordWarnings ⟨"A", some 2, some 5, some (-1)⟩ =
      ("A", critMsg) :: growthPart ⟨"A", some 2, some 5, some (-1)⟩ ∧
    recordWarnings ⟨"B", some 2, some 0, none⟩ =
      ("B", zeroBurnMsg) :: growthPart ⟨"B", some 2, some 0, none⟩ ∧
    recordWarnings ⟨"C", some 1500000, some 10000, none⟩ =
      ("C", longRunwayMsg) :: growthPart ⟨"C", some 1500000, some 10000, none⟩ :=
  ⟨(claim_C1 ⟨"A", some 2, some 5, some (-1)⟩).1
      ⟨5, 2, rfl, rfl, by norm_num, by norm_num⟩,
   (claim_C1 ⟨"B", some 2, some 0, none⟩).2.1 ⟨0, rfl, le_refl 0⟩,
   (claim_C1 ⟨"C", some 1500000, some 10000, none⟩).2.2.1
      ⟨10000, 1500000, rfl, rfl, by norm_num, by norm_num⟩⟩

lemma burnPos_burn_isSome {r : Record} (h : burnPos r = true) :
    ∃ b, r.monthly_burn = some b ∧ 0 < b := by
  unfold burnPos at h
  cases hb : r.monthly_burn with
  | none => rw [hb] at h; simp at h
  | some b => rw [hb] at h; simp at h; exact ⟨b, rfl, h⟩

lemma runwayRatio_isSome {r : Record} (hb : burnPos r = true) (hc : r.cash ≠ none) :
    (runwayRatio r).isSome := by
  rcases burnPos_burn_isSome hb with ⟨b, hb2, _⟩
  cases hcash : r.cash with
  | none => exact absurd hcash hc
  | some c => unfold runwayRatio; rw [hcash, hb2]; rfl

lemma filterMap_length_of_isSome {α β : Type} (f : α → Option β) (l : List α)
    (h : ∀ x ∈ l, (f x).isSome) : (l.filterMap f).length = l.length := by
  induction l with
  | nil => rfl
  | cons a l ih =>
    have ha := h a (List.mem_cons_self a l)
    cases hf : f a with
    | none => rw [hf] at ha; simp at ha
    | some b =>
      rw [List.filterMap_cons, hf]
      simp only [List.length_cons]
      rw [ih (fun x hx => h x (List.mem_cons_of_mem a hx))]

/-- Claim C2: `avg_runway` is the mean of `cash / monthly_burn` over exactly
the records with `monthly_burn > 0`; it is absent (`None`) precisely when no
record has a positive burn (never zero, never an error, never a
divide-by-zero artifact, since rows with non-positive burn are filtered out
before the division); `runway_based_on` exposes the number of contributing
records exactly when it is smaller than the record count. -/
theorem claim_C2 (rs : List Record) :
    (rs.filter burnPos = [] → (analyze_data rs).avg_runway = none) ∧
    ((analyze_data rs).avg_runway = none → rs.filter burnPos = []) ∧
    (rs.filter burnPos ≠ [] → (∀ r ∈ rs.filter burnPos, r.cash ≠ none) →
       (analyze_data rs).avg_runway =
         some (.val (((rs.filter burnPos).filterMap runwayRatio).sum /
           ((rs.filter burnPos).length : ℚ))) ∧
       ((rs.filter burnPos).filterMap runwayRatio).length =
         (rs.filter burnPos).length) ∧
    ((rs.filter burnPos).length < rs.length →
       (analyze_data rs).runway_based_on = some (rs.filter burnPos).length) ∧
    (¬ (rs.filter burnPos).length < rs.length →
       (analyze_data rs).runway_based_on = none) := by
  refine ⟨?_, ?_, ?_, ?_, ?_⟩
  · intro h
    simp [analyze_data, h]
  · intro h
    by_contra hne
    have hpos : 0 < (rs.filter burnPos).length := List.length_pos.mpr hne
    simp [analyze_data, hpos] at h
  · intro hne hcash
    have hall : ∀ r ∈ rs.filter burnPos, (runwayRatio r).isSome := by
      intro r hr
      exact runwayRatio_isSome (List.mem_filter.mp hr).2 (hcash r hr)
    have hlen : ((rs.filter burnPos).filterMap runwayRatio).length =
        (rs.filter burnPos).length :=
      filterMap_length_of_isSome _ _ hall
    have hpos : 0 < (rs.filter burnPos).length := List.length_pos.mpr hne
    refine ⟨?_, hlen⟩
    have hmap : ((rs.filter burnPos).map runwayRatio).filterMap id =
        (rs.filter burnPos).filterMap runwayRatio := by
      rw [List.filterMap_map]
      rfl
    have hvs : ¬ ((rs.filter burnPos).filterMap runwayRatio).isEmpty = true := by
      rw [List.isEmpty_iff_length_eq_zero, hlen]
      omega
    simp only [analyze_data, hpos, if_true, nanmean, hmap, hvs, if_false, hlen]
    simp [hpos]
  · intro h
    simp [analyze_data, h]
  · intro h
    simp [analyze_data, h]

/-- Witness for C2 at a concrete record set with one positive-burn record
out of two. -/
theorem claim_C2_witness :
    (analyze_data [⟨"A", some 10, some 2, none⟩, ⟨"C", some 9, some 0, none⟩]).avg_runway =
      some (.val ((([⟨"A", some 10, some 2, none⟩,
          ⟨"C", some 9, some 0, none⟩].filter burnPos).filterMap runwayRatio).sum /
        (([(⟨"A", some 10, some 2, none⟩ : Record),
          ⟨"C", some 9, some 0, none⟩].filter burnPos).length : ℚ))) ∧
    (analyze_data [⟨"A", some 10, some 2, none⟩, ⟨"C", some 9, some 0, none⟩]).runway_based_on =
      some ([(⟨"A", some 10, some 2, none⟩ : Record),
        ⟨"C", some 9, some 0, none⟩].filter burnPos).length :=
  ⟨((claim_C2 [⟨"A", some 10, some 2, none⟩, ⟨"C", some 9, some 0, none⟩]).2.2.1
      (by decide) (by decide)).1,
   (claim_C2 [⟨"A", some 10, some 2, none⟩, ⟨"C", some 9, some 0, none⟩]).2.2.2.1
      (by decide)⟩

lemma growthEntriesFrom_fst_ge (i : ℕ) (rs : List Record) :
    ∀ x ∈ growthEntriesFrom i rs, i ≤ x.1 := by
  induction rs generalizing i with
  | nil => intro x hx; simp [growthEntriesFrom] at hx
  | cons r rs ih =>
    intro x hx
    unfold growthEntriesFrom at hx
    cases hg : r.revenue_growth with
    | some g =>
      rw [hg] at hx
      rcases List.mem_cons.mp hx with h | h
      · rw [h]
      · exact le_trans (Nat.le_succ i) (ih (i + 1) x h)
    | none =>
      rw [hg] at hx
      exact le_trans (Nat.le_succ i) (ih (i + 1) x hx)

lemma growthEntriesFrom_pairwise (i : ℕ) (rs : List Record) :
    List.Pairwise (fun a b => a.1 < b.1) (growthEntriesFrom i rs) := by
  induction rs generalizing i with
  | nil => exact List.Pairwise.nil
  | cons r rs ih =>
    unfold growthEntriesFrom
    cases hg : r.revenue_growth with
    | some g =>
      refine List.Pairwise.cons ?_ (ih (i + 1))
      intro x hx
      exact lt_of_lt_of_le (Nat.lt_succ_self i) (growthEntriesFrom_fst_ge (i + 1) rs x hx)
    | none => exact ih (i + 1)

lemma growthEntriesFrom_mem {i : ℕ} {rs : List Record} {x : ℕ × String × ℚ}
    (hx : x ∈ growthEntriesFrom i rs) :
    ∃ r ∈ rs, r.name = x.2.1 ∧ r.revenue_growth = some x.2.2 := by
  induction rs generalizing i with
  | nil => simp [growthEntriesFrom] at hx
  | cons r rs ih =>
    unfold growthEntriesFrom at hx
    cases hg : r.revenue_growth with
    | some g =>
      rw [hg] at hx
      rcases List.mem_cons.mp hx with h | h
      · refine ⟨r, List.mem_cons_self r rs, ?_⟩
        rw [h]
        exact ⟨rfl, hg⟩
      · rcases ih h with ⟨r2, hr2, h1, h2⟩
        exact ⟨r2, List.mem_cons_of_mem r hr2, h1, h2⟩
    | none =>
      rw [hg] at hx
      rcases ih hx with ⟨r2, hr2, h1, h2⟩
      exact ⟨r2, List.mem_cons_of_mem r hr2, h1, h2⟩

lemma sorted_growth_pairwise (rs : List Record) :
    List.Pairwise (fun a b => growerR a b ∧ a.1 ≠ b.1)
      (List.insertionSort growerR (growthEntries rs)) := by
  have h1 : List.Pairwise growerR (List.insertionSort growerR (growthEntries rs)) :=
    List.sorted_insertionSort growerR (growthEntries rs)
  have hperm : (List.insertionSort growerR (growthEntries rs)).Perm (growthEntries rs) :=
    List.perm_insertionSort growerR (growthEntries rs)
  have hwg : ((growthEntries rs).map (fun x => x.1)).Nodup :=
    List.pairwise_map.mpr ((growthEntriesFrom_pairwise 0 rs).imp (fun h => Nat.ne_of_lt h))
  have hsorted : ((List.insertionSort growerR (growthEntries rs)).map (fun x => x.1)).Nodup :=
    ((hperm.map (fun x => x.1)).nodup_iff).mpr hwg
  exact h1.and (List.pairwise_map.mp hsorted)

/-- Claim C6: `top_growers` has exactly `min 3 k` entries where `k` is the
number of rows carrying a `revenue_growth` value, is sorted by
`revenue_growth` descending with ties broken by original row order, consists
of rows whose growth is at least that of every row left out, and uses every
available row when fewer than three carry a value. -/
theorem claim_C6 (rs : List Record) :
    (top_growers rs).length = min 3 (growthEntries rs).length ∧
    List.Pairwise (fun a b => b.2.2 < a.2.2 ∨ (a.2.2 = b.2.2 ∧ a.1 < b.1))
      (top3Entries rs) ∧
    (∀ x ∈ top3Entries rs, x ∈ growthEntries rs) ∧
    (∀ x ∈ top3Entries rs, ∀ y ∈ growthEntries rs,
       y ∉ top3Entries rs → y.2.2 ≤ x.2.2) ∧
    ((growthEntries rs).length ≤ 3 → ∀ y ∈ growthEntries rs, y ∈ top3Entries rs) := by
  have hperm : (List.insertionSort growerR (growthEntries rs)).Perm (growthEntries rs) :=
    List.perm_insertionSort growerR (growthEntries rs)
  have h1 : List.Pairwise growerR (List.insertionSort growerR (growthEntries rs)) :=
    List.sorted_insertionSort growerR (growthEntries rs)
  refine ⟨?_, ?_, ?_, ?_, ?_⟩
  · unfold top_growers top3Entries
    rw [List.length_map, List.length_take, hperm.length_eq]
  · refine List.Pairwise.sublist (List.take_sublist 3 _) ?_
    refine (sorted_growth_pairwise rs).imp ?_
    intro a b h
    rcases h with ⟨hr, hne⟩
    rcases hr with h | ⟨he, hle⟩
    · exact Or.inl h
    · exact Or.inr ⟨he, lt_of_le_of_ne hle hne⟩
  · intro x hx
    exact hperm.mem_iff.mp (List.take_subset 3 _ hx)
  · intro x hx y hy hyn
    have hysorted : y ∈ List.insertionSort growerR (growthEntries rs) :=
      hperm.mem_iff.mpr hy
    rw [← List.take_append_drop 3 (List.insertionSort growerR (growthEntries rs)),
      List.mem_append] at hysorted
    rcases hysorted with h | h
    · exact absurd h hyn
    · have hp : List.Pairwise growerR
          ((List.insertionSort growerR (growthEntries rs)).take 3 ++
           (List.insertionSort growerR (growthEntries rs)).drop 3) := by
        rw [List.take_append_drop]
        exact h1
      rcases List.pairwise_append.mp hp with ⟨_, _, hcross⟩
      rcases hcross x hx y h with h2 | ⟨h2, _⟩
      · exact le_of_lt h2
      · exact le_of_eq h2.symm
  · intro hle y hy
    unfold top3Entries
    rw [List.take_of_length_le (by rw [hperm.length_eq]; exact hle)]
    exact hperm.mem_iff.mpr hy

/-- Witness for C6 at a concrete record set with a tie and a growth-less
record. -/
theorem claim_C6_witness :
    (top_growers [⟨"A", none, none, some 1⟩, ⟨"B", none, none, some 3⟩,
        ⟨"C", none, none, none⟩, ⟨"D", none, none, some 3⟩,
        ⟨"E", none, none, some 2⟩]).length =
      min 3 (growthEntries [⟨"A", none, none, some 1⟩, ⟨"B", none, none, some 3⟩,
        ⟨"C", none, none, none⟩, ⟨"D", none, none, some 3⟩,
        ⟨"E", none, none, some 2⟩]).length ∧
    ((1 : ℕ), "B", (3 : ℚ)) ∈ growthEntries [⟨"A", none, none, some 1⟩,
      ⟨"B", none, none, some 3⟩, ⟨"C", none, none, none⟩,
      ⟨"D", none, none, some 3⟩, ⟨"E", none, none, some 2⟩] :=
  ⟨(claim_C6 [⟨"A", none, none, some 1⟩, ⟨"B", none, none, some 3⟩,
      ⟨"C", none, none, none⟩, ⟨"D", none, none, some 3⟩,
      ⟨"E", none, none, some 2⟩]).1,
   (claim_C6 [⟨"A", none, none, some 1⟩, ⟨"B", none, none, some 3⟩,
      ⟨"C", none, none, none⟩, ⟨"D", none, none, some 3⟩,
      ⟨"E", none, none, some 2⟩]).2.2.1 (1, "B", 3) (by decide)⟩

lemma growthEntriesFrom_all_none (i : ℕ) (rs : List Record)
    (h : ∀ r ∈ rs, r.revenue_growth = none) : growthEntriesFrom i rs = [] := by
  induction rs generalizing i with
  | nil => rfl
  | cons r rs ih =>
    unfold growthEntriesFrom
    rw [h r (List.mem_cons_self r rs)]
    exact ih (i + 1) (fun x hx => h x (List.mem_cons_of_mem r hx))

/-- Claim C9: a record with absent `revenue_growth` never appears in
`top_growers`; `top_growers` can have fewer than three entries even when the
record set has three or more records, and is empty when every record's
growth is absent. -/
theorem claim_C9 :
    (∀ rs : List Record, ∀ p ∈ top_growers rs,
       ∃ r ∈ rs, r.name = p.1 ∧ r.revenue_growth = some p.2) ∧
    (∀ rs : List Record, (∀ r ∈ rs, r.revenue_growth = none) →
       top_growers rs = []) ∧
    (∃ rs : List Record, 3 ≤ rs.length ∧ (top_growers rs).length < 3) := by
  refine ⟨?_, ?_, ?_⟩
  · intro rs p hp
    unfold top_growers at hp
    rcases List.mem_map.mp hp with ⟨e, he, hep⟩
    have hwg : e ∈ growthEntries rs :=
      (List.perm_insertionSort growerR (growthEntries rs)).mem_iff.mp
        (List.take_subset 3 _ he)
    rcases growthEntriesFrom_mem hwg with ⟨r, hr, h1, h2⟩
    refine ⟨r, hr, ?_⟩
    rw [← hep]
    exact ⟨h1, h2⟩
  · intro rs h
    unfold top_growers top3Entries growthEntries
    rw [growthEntriesFrom_all_none 0 rs h]
    rfl
  · exact ⟨[⟨"X", none, none, none⟩, ⟨"Y", none, none, none⟩,
      ⟨"Z", none, none, none⟩], by decide, by decide⟩

/-- Witness for C9: a concrete top-growers entry traced back to its record,
and an all-absent record set with empty top growers. -/
theorem claim_C9_witness :
    (∃ r ∈ [(⟨"A", none, none, some 1⟩ : Record), ⟨"B", none, none, some 3⟩],
       r.name = ("B", (3 : ℚ)).1 ∧ r.revenue_growth = some ("B", (3 : ℚ)).2) ∧
    top_growers [⟨"X", none, none, none⟩] = [] :=
  ⟨claim_C9.1 [⟨"A", none, none, some 1⟩, ⟨"B", none, none, some 3⟩]
      ("B", 3) (by decide),
   claim_C9.2.1 [⟨"X", none, none, none⟩] (by decide)⟩

lemma isPrefixSeq_iff (p l : List Char) : isPrefixSeq p l = true ↔ p <+: l := by
  induction p generalizing l with
  | nil => simp [isPrefixSeq]
  | cons a p ih =>
    cases l with
    | nil => simp [isPrefixSeq]
    | cons b l => simp [isPrefixSeq, ih, List.cons_prefix_cons]

lemma containsSeq_iff (p l : List Char) : containsSeq p l = true ↔ p <:+: l := by
  induction l with
  | nil =>
    unfold containsSeq
    rw [isPrefixSeq_iff]
    simp
  | cons c cs ih =>
    unfold containsSeq
    rw [Bool.or_eq_true, isPrefixSeq_iff, ih, List.infix_cons_iff]

/-- A concrete table for the C4 witness: a title row, then a header row,
then one data row. -/
def sampleTable : List (List (Option String)) :=
  [[some "Title"], [some "Name", some "Cash"], [some "A", some "1"]]

/-- Claim C4: a table row is selected as a header row exactly when it
contains the cell `name` (case-insensitively) and one of the tokens `cash`,
`burn`, `growth` occurs within its (lowercased, concatenated) cells; the
first such row becomes the active header, and all rows after it in the table
are treated as data rows. -/
theorem claim_C4 (table : List (List (Option String))) :
    (∀ row : List (Option String),
       isHeaderRow row = true ↔
         ((∃ c ∈ row, cellLower c = "name") ∧
          ∃ k ∈ ["cash", "burn", "growth"],
            k.data <:+: (String.join (row.map cellLower)).data)) ∧
    (table.findIdx? isHeaderRow = none → parseTable table = []) ∧
    (∀ i, table.findIdx? isHeaderRow = some i →
       i < table.length ∧
       isHeaderRow (table.getD i []) = true ∧
       (∀ j, j < i → isHeaderRow (table.getD j []) = false) ∧
       parseTable table =
         (table.drop (i + 1)).filterMap
           (dataRowRecord ((table.getD i []).map cellLower))) := by
  refine ⟨?_, ?_, ?_⟩
  · intro row
    unfold isHeaderRow
    rw [Bool.and_eq_true, List.any_eq_true]
    constructor
    · intro ⟨h1, k, hk, h2⟩
      refine ⟨?_, k, hk, (containsSeq_iff _ _).mp h2⟩
      rcases List.mem_map.mp (List.elem_iff.mp h1) with ⟨c, hc, he⟩
      exact ⟨c, hc, he⟩
    · intro ⟨⟨c, hc, he⟩, k, hk, h2⟩
      refine ⟨List.elem_iff.mpr (List.mem_map.mpr ⟨c, hc, he⟩), k, hk,
        (containsSeq_iff _ _).mpr h2⟩
  · intro h
    unfold parseTable
    rw [h]
  · intro i h
    rcases List.findIdx?_eq_some_iff_findIdx_eq.mp h with ⟨hlt, hfind⟩
    refine ⟨hlt, ?_, ?_, ?_⟩
    · rw [List.getD_eq_getElem table [] hlt]
      have hw : List.findIdx isHeaderRow table < table.length := by rw [hfind]; exact hlt
      have := @List.findIdx_getElem _ isHeaderRow table hw
      simp only [hfind] at this
      exact this
    · intro j hj
      have hjlt : j < table.length := lt_trans hj hlt
      rw [List.getD_eq_getElem table [] hjlt]
      exact List.not_of_lt_findIdx (by rw [hfind]; exact hj)
    · unfold parseTable
      rw [h]

/-- Witness for C4 at a concrete table whose header sits at index 1. -/
theorem claim_C4_witness :
    1 < sampleTable.length ∧
    isHeaderRow (sampleTable.getD 1 []) = true ∧
    parseTable sampleTable =
      (sampleTable.drop 2).filterMap
        (dataRowRecord ((sampleTable.getD 1 []).map cellLower)) :=
  ⟨((claim_C4 sampleTable).2.2 1 (by decide)).1,
   ((claim_C4 sampleTable).2.2 1 (by decide)).2.1,
   ((claim_C4 sampleTable).2.2 1 (by decide)).2.2.2⟩

/-- A page with no tables whose text the unstructured fallback parses into
one record. -/
def textPage : Page := { tables := [], text := "name: TextCo, cash: 5" }

/-- A page whose single table yields one accepted record. -/
def tablePage : Page :=
  { tables := [[[some "name", some "cash"], [some "TabCo", some "7"]]], text := "" }

/-- Counterexample to C5 as stated: in this two-page document a record is
accepted from a table (on the second page), yet the output also contains the
record the unstructured path produced from the first page's text — the code
consults the record list accumulated so far after each page's tables, not
after all tables of all pages, so the output is not the table-only record
list. -/
theorem claim_C5_counterexample :
    allTableRecords [textPage, tablePage] ≠ [] ∧
    gatherRecords [textPage, tablePage] ≠ allTableRecords [textPage, tablePage] := by
  constructor
  · decide
  · decide

lemma gatherStep_of_ne_nil (acc : List RawRec) (p : Page) (h : acc ≠ []) :
    gatherStep acc p = acc ++ pageTableRecords p := by
  unfold gatherStep
  rw [if_neg]
  simp [List.isEmpty_iff, h]

lemma foldl_gatherStep_of_ne_nil (pages : List Page) (acc : List RawRec)
    (h : acc ≠ []) :
    pages.foldl gatherStep acc = acc ++ allTableRecords pages := by
  induction pages generalizing acc with
  | nil => simp [allTableRecords]
  | cons p pages ih =>
    rw [List.foldl_cons, gatherStep_of_ne_nil acc p h,
      ih _ (fun hh => h (List.append_eq_nil.mp hh).1)]
    simp [allTableRecords]

/-- Claim C5, amended: the unstructured path contributes on a page only
while the accumulated record list is still empty; in particular, when at
least one record is accepted from a table of the first page, the output is
exactly the table-accepted records of all pages and contains nothing from
the unstructured path. -/
theorem claim_C5 (p : Page) (pages : List Page) (h : pageTableRecords p ≠ []) :
    gatherRecords (p :: pages) = allTableRecords (p :: pages) := by
  unfold gatherRecords
  rw [List.foldl_cons]
  have h0 : gatherStep [] p = pageTableRecords p := by
    unfold gatherStep
    rw [List.nil_append, if_neg (by simp [List.isEmpty_iff, h])]
  rw [h0, foldl_gatherStep_of_ne_nil pages _ h]
  simp [allTableRecords]

/-- Witness for the amended C5: with the table page first, the output is the
table-only record list. -/
theorem claim_C5_witness :
    gatherRecords [tablePage, textPage] = allTableRecords [tablePage, textPage] :=
  claim_C5 tablePage [textPage] (by decide)

lemma numField_eq_bind (d : RawRec) (c : String) :
    numField d c =
      (dget d c).bind (fun v => v.bind (fun s => parse_number (.str s))) := by
  cases h : dget d c with
  | none => simp [numField, h]
  | some v =>
    cases v with
    | none => simp [numField, h]
    | some s => simp [numField, h]

/-- A page whose text parses into one record carrying all four required
fields, for the C8 witness. -/
def kvPage : Page :=
  { tables := [],
    text := "name: A, cash: 5\nmonthly_burn: 2, revenue_growth: 0.5" }

/-- Claim C8: single-document extraction hard-fails exactly when it gathered
no accepted record or some required column key is absent from every gathered
record; a per-value numeric parse failure never escalates — the affected
field simply becomes absent in the converted record (the numeric conversion
plays no role in the failure condition). -/
theorem claim_C8 (pages : List Page) :
    ((∃ e, parse_pdf pages = .error e) ↔
       (gatherRecords pages = [] ∨
        ∃ c ∈ requiredCols, ∀ d ∈ gatherRecords pages, dget d c = none)) ∧
    (gatherRecords pages ≠ [] →
       (∀ c ∈ requiredCols, ∃ d ∈ gatherRecords pages, (dget d c).isSome) →
       parse_pdf pages = .ok ((gatherRecords pages).map toRecord)) ∧
    (∀ d : RawRec,
       (toRecord d).cash =
         (dget d "cash").bind (fun v => v.bind (fun s => parse_number (.str s))) ∧
       (toRecord d).monthly_burn =
         (dget d "monthly_burn").bind (fun v => v.bind (fun s => parse_number (.str s))) ∧
       (toRecord d).revenue_growth =
         (dget d "revenue_growth").bind (fun v => v.bind (fun s => parse_number (.str s)))) := by
  have hpred : ∀ c : String,
      (!((gatherRecords pages).any (fun d => (dget d c).isSome))) = true ↔
        ∀ d ∈ gatherRecords pages, dget d c = none := by
    intro c
    rw [Bool.not_eq_true', List.any_eq_false]
    constructor
    · intro h d hd
      exact Option.not_isSome_iff_eq_none.mp (by simpa using h d hd)
    · intro h d hd
      simp [h d hd]
  refine ⟨⟨?_, ?_⟩, ?_, ?_⟩
  · intro ⟨e, he⟩
    unfold parse_pdf at he
    by_cases h1 : (gatherRecords pages).isEmpty
    · exact Or.inl (List.isEmpty_iff.mp h1)
    · rw [if_neg h1] at he
      by_cases h2 : (requiredCols.filter
          (fun c => !((gatherRecords pages).any (fun d => (dget d c).isSome)))).isEmpty
      · rw [if_pos h2] at he
        exact absurd he (by simp)
      · refine Or.inr ?_
        rcases List.exists_mem_of_ne_nil _
            (fun hh => h2 (List.isEmpty_iff.mpr hh)) with ⟨c, hc⟩
        rcases List.mem_filter.mp hc with ⟨hcr, hcp⟩
        exact ⟨c, hcr, (hpred c).mp hcp⟩
  · intro h
    unfold parse_pdf
    by_cases h1 : (gatherRecords pages).isEmpty
    · exact ⟨.noData, by rw [if_pos h1]⟩
    · rcases h with h | ⟨c, hc, hall⟩
      · exact absurd (List.isEmpty_iff.mpr h) h1
      · have hcf : c ∈ requiredCols.filter
            (fun c => !((gatherRecords pages).any (fun d => (dget d c).isSome))) :=
          List.mem_filter.mpr ⟨hc, (hpred c).mpr hall⟩
        have h2 : ¬ (requiredCols.filter
            (fun c => !((gatherRecords pages).any (fun d => (dget d c).isSome)))).isEmpty = true := by
          rw [List.isEmpty_iff]
          intro hh
          rw [hh] at hcf
          exact absurd hcf (List.not_mem_nil c)
        exact ⟨_, by rw [if_neg h1, if_neg h2]⟩
  · intro hne hcov
    unfold parse_pdf
    rw [if_neg (by simp [List.isEmpty_iff, hne])]
    rw [if_pos ?_]
    rw [List.isEmpty_iff]
    refine List.filter_eq_nil_iff.mpr ?_
    intro c hc
    rw [Bool.not_eq_true, Bool.not_eq_false']
    rcases hcov c hc with ⟨d, hd, hds⟩
    exact List.any_eq_true.mpr ⟨d, hd, hds⟩
  · intro d
    exact ⟨numField_eq_bind d "cash", numField_eq_bind d "monthly_burn",
      numField_eq_bind d "revenue_growth"⟩

/-- Witness for C8: a document with one key-value record carrying all four
required fields extracts successfully. -/
theorem claim_C8_witness :
    parse_pdf [kvPage] = .ok ((gatherRecords [kvPage]).map toRecord) :=
  (claim_C8 [kvPage]).2.1 (by decide) (by decide)

end VC
